import Mathlib

/-!
Verification of the exercise-tracker REST API.

The repository contains three Express/Mongoose variants of the same four
endpoints: the main app (`src/server.js`), a bare router
(`src/unnamed/part_000` lines 1-74, whose `User` model file is not in the
repository), and a second full app (`src/unnamed/part_000` lines 76-295).
This file embeds the request handlers of those variants as pure functions
over an explicit database state and proves properties of them.

Modelling conventions:
  - JavaScript `Date` values are epoch milliseconds (`Int`); the local time zone of the server is modelled as UTC, so `date.toDateString()` and
    `setHours(23,59,59,999)` act on UTC calendar days.
  - `new Date(s)` for a request string is modelled for the ECMA-262
    date-only ISO form `YYYY-MM-DD` (the format the API documents); every
    other string is modelled as an invalid date (`none`, i.e. `NaN` time).
  - MongoDB ObjectIds are modelled as 24-character hex strings; a
    `findById` on a non-castable id throws a `CastError`, modelled by
    `Except.error`.
  - Request bodies are `application/x-www-form-urlencoded`, so body fields
    arrive as strings; JavaScript truthiness of such a field is
    "present and non-empty".
-/

/-- Numeric value of a list of decimal digit characters (most significant
first), as JavaScript digit parsing accumulates them. -/
def natOfDigits (cs : List Char) : Nat :=
  cs.foldl (fun a c => a * 10 + (c.toNat - 48)) 0

/-- The longest leading run of decimal digits, `none` when there is none.
Models how `parseInt` consumes a digit prefix and yields `NaN` otherwise. -/
def leadingDigits (cs : List Char) : Option Nat :=
  let ds := cs.takeWhile Char.isDigit
  if ds.isEmpty then none else some (natOfDigits ds)

/-- JavaScript `parseInt(s)` (radix 10): skip leading whitespace, optional
sign, longest digit prefix; `none` models `NaN`. -/
def parseIntJS (s : String) : Option Int :=
  match s.toList.dropWhile Char.isWhitespace with
  | '-' :: rest => (leadingDigits rest).map (fun n => -(n : Int))
  | '+' :: rest => (leadingDigits rest).map (fun n => (n : Int))
  | rest => (leadingDigits rest).map (fun n => (n : Int))

def isLeapYear (y : Nat) : Bool :=
  (y % 4 == 0 && y % 100 != 0) || y % 400 == 0

def daysInMonth (y m : Nat) : Nat :=
  if m == 2 then (if isLeapYear y then 29 else 28)
  else if m == 4 || m == 6 || m == 9 || m == 11 then 30
  else 31

/-- Days from the epoch 1970-01-01 to the civil date `y-m-d`
(proleptic Gregorian; the standard civil-from-days era computation). -/
def daysFromCivil (y : Int) (m d : Nat) : Int :=
  let y' : Int := if m ≤ 2 then y - 1 else y
  let era : Int := Int.fdiv y' 400
  let yoe : Nat := (y' - era * 400).toNat
  let mp : Nat := (m + 9) % 12
  let doy : Nat := (153 * mp + 2) / 5 + d - 1
  let doe : Nat := yoe * 365 + yoe / 4 - yoe / 100 + doy
  era * 146097 + (doe : Int) - 719468

/-- Inverse of `daysFromCivil`: the civil date `(year, month, day)` of an
epoch day number. -/
def civilFromDays (z : Int) : Int × Nat × Nat :=
  let z' : Int := z + 719468
  let era : Int := Int.fdiv z' 146097
  let doe : Nat := (z' - era * 146097).toNat
  let yoe : Nat := (doe - doe / 1460 + doe / 36524 - doe / 146096) / 365
  let doy : Nat := doe - (365 * yoe + yoe / 4 - yoe / 100)
  let mp : Nat := (5 * doy + 2) / 153
  let d : Nat := doy - (153 * mp + 2) / 5 + 1
  let m : Nat := if mp < 10 then mp + 3 else mp - 9
  let y : Int := (yoe : Int) + era * 400 + (if m ≤ 2 then 1 else 0)
  (y, m, d)

/-- Model of `new Date(s)` on a request string: the ECMA-262 date-only ISO form
`YYYY-MM-DD` parses to the UTC midnight of that calendar day (in epoch
milliseconds); any other string is an invalid date (`none`). -/
def parseDate (s : String) : Option Int :=
  match s.toList with
  | [y1, y2, y3, y4, h1, m1, m2, h2, d1, d2] =>
    if y1.isDigit && y2.isDigit && y3.isDigit && y4.isDigit && h1 == '-' &&
       m1.isDigit && m2.isDigit && h2 == '-' && d1.isDigit && d2.isDigit then
      let y := natOfDigits [y1, y2, y3, y4]
      let m := natOfDigits [m1, m2]
      let d := natOfDigits [d1, d2]
      if 1 ≤ m && m ≤ 12 && 1 ≤ d && d ≤ daysInMonth y m then
        some (86400000 * daysFromCivil (y : Int) m d)
      else none
    else none
  | _ => none

def weekdayNames : List String :=
  ["Sun", "Mon", "Tue", "Wed", "Thu", "Fri", "Sat"]

def monthNames : List String :=
  ["Jan", "Feb", "Mar", "Apr", "May", "Jun",
   "Jul", "Aug", "Sep", "Oct", "Nov", "Dec"]

/-- Two-digit zero-padded day, as `toDateString` renders it. -/
def pad2 (n : Nat) : String :=
  if n < 10 then "0" ++ toString n else toString n

/-- Zero-pad a number to at least four digits, as `toDateString` renders
the year. -/
def pad4 (n : Nat) : String :=
  let s := toString n
  if s.length < 4 then String.mk (List.replicate (4 - s.length) '0') ++ s else s

def yearString (y : Int) : String :=
  if y < 0 then "-" ++ pad4 (-y).toNat else pad4 y.toNat

/-- JavaScript `date.toDateString()` (local time modelled as UTC):
`"<Weekday> <Month> <Day> <Year>"`, e.g. `"Mon Jan 01 1990"`. -/
def toDateString (ms : Int) : String :=
  let z := Int.fdiv ms 86400000
  let c := civilFromDays z
  let wd := (Int.emod (z + 4) 7).toNat
  weekdayNames.getD wd "" ++ " " ++ monthNames.getD (c.2.1 - 1) "" ++ " " ++
    pad2 c.2.2 ++ " " ++ yearString c.1

/-- A record of the `User` collection (`server.js` lines 14-17). -/
structure User where
  id : String
  username : String
deriving Repr, DecidableEq

/-- A record of the `Exercise` collection (`server.js` lines 19-25);
`date` is epoch milliseconds. -/
structure Exercise where
  id : Nat
  userId : String
  description : String
  duration : Int
  date : Int
deriving Repr, DecidableEq

/-- The database state: both collections in insertion (natural) order,
plus counters supplying fresh record ids. -/
structure DB where
  users : List User
  exercises : List Exercise
  nextUserId : Nat
  nextExerciseId : Nat
deriving Repr, DecidableEq

/-- Outcome of a request handler: a JSON success body, or
`res.status(st).json({error: msg})`. -/
inductive ApiResult (α : Type) where
  | ok : α → ApiResult α
  | err : Nat → String → ApiResult α
deriving Repr, DecidableEq

/-- Success body of `POST /api/users`: `{username, _id}`. -/
structure UserResponse where
  username : String
  id : String
deriving Repr, DecidableEq

/-- Success body of `POST /api/users/:_id/exercises`
(`server.js` lines 131-137): `{_id, username, description, duration, date}`
where `_id` is the id of the user and `date` a `toDateString` rendering. -/
structure ExerciseResponse where
  id : String
  username : String
  description : String
  duration : Int
  date : String
deriving Repr, DecidableEq

/-- One entry of the `log` array (`server.js` lines 204-208): only
`description`, `duration` and the rendered `date`. -/
structure LogEntry where
  description : String
  duration : Int
  date : String
deriving Repr, DecidableEq

/-- Success body of `GET /api/users/:_id/logs` (`server.js` lines 210-215). -/
structure LogResponse where
  id : String
  username : String
  count : Nat
  log : List LogEntry
deriving Repr, DecidableEq

instance {α β : Type} [DecidableEq α] [DecidableEq β] : DecidableEq (Except α β) :=
  fun x y =>
  match x, y with
  | .error a, .error b =>
    if h : a = b then isTrue (congrArg Except.error h)
    else isFalse (fun hc => h (Except.error.inj hc))
  | .ok a, .ok b =>
    if h : a = b then isTrue (congrArg Except.ok h)
    else isFalse (fun hc => h (Except.ok.inj hc))
  | .error _, .ok _ => isFalse (fun hc => Except.noConfusion hc)
  | .ok _, .error _ => isFalse (fun hc => Except.noConfusion hc)

def isHexDigit (c : Char) : Bool :=
  c.isDigit || ('a' ≤ c && c ≤ 'f') || ('A' ≤ c && c ≤ 'F')

/-- A string castable to a MongoDB ObjectId: 24 hexadecimal characters. -/
def isValidObjectId (s : String) : Bool :=
  s.length == 24 && s.toList.all isHexDigit

/-- Fresh ObjectId generation, modelled as the decimal counter value
zero-padded to 24 characters (decimal digits are hex digits). -/
def objectIdOfNat (n : Nat) : String :=
  let s := toString n
  String.mk (List.replicate (24 - s.length) '0') ++ s

/-- Model of `User.findById(uid)` after a successful cast. -/
def findUser (db : DB) (uid : String) : Option User :=
  db.users.find? (fun u => u.id == uid)

/-- Model of `User.findById(uid)`: throws `CastError` (modelled by `Except.error`)
when `uid` is not castable to an ObjectId, else looks the user up. -/
def findByIdUser (db : DB) (uid : String) : Except String (Option User) :=
  if isValidObjectId uid then .ok (findUser db uid) else .error "CastError"

/-- JavaScript truthiness of an optional request string: present and
non-empty. -/
def truthy (s? : Option String) : Bool :=
  match s? with
  | none => false
  | some s => !(s == "")

/-- Endpoint `POST /api/users` (`server.js` lines 43-67; the full app of
`part_000` lines 137-160 implements the same logic): reject a missing
username, return an existing user with that username unchanged, else
insert a fresh one. -/
def createUser (db : DB) (uname : String) : ApiResult UserResponse × DB :=
  if uname == "" then (.err 400 "Username is required", db)
  else
    match db.users.find? (fun u => u.username == uname) with
    | some u => (.ok ⟨u.username, u.id⟩, db)
    | none =>
      let u : User := ⟨objectIdOfNat db.nextUserId, uname⟩
      (.ok ⟨u.username, u.id⟩,
       { db with users := db.users ++ [u], nextUserId := db.nextUserId + 1 })

/-- Modelled from the spec: the bare router endpoint `POST /` (`part_000` lines
6-10) unconditionally saves a new `User`; its model file `/models/User` is
not in the repository, and per the spec the variant "treats duplicates as
creation attempts relying on a uniqueness constraint to fail with
`ConflictError`". -/
def routerCreateUser (db : DB) (uname : String) : ApiResult UserResponse × DB :=
  match db.users.find? (fun u => u.username == uname) with
  | some _ => (.err 409 "ConflictError: duplicate username", db)
  | none =>
    let u : User := ⟨objectIdOfNat db.nextUserId, uname⟩
    (.ok ⟨u.username, u.id⟩,
     { db with users := db.users ++ [u], nextUserId := db.nextUserId + 1 })

/-- JavaScript `String.prototype.trim`: strip whitespace from both ends. -/
def trimJS (s : String) : String :=
  String.mk (((s.toList.dropWhile Char.isWhitespace).reverse.dropWhile
    Char.isWhitespace).reverse)

/-- The date stored by the exercise handler of `server.js` (lines 95-113):
a truthy, non-whitespace `date` field is parsed, falling back to the
current time when parsing fails; otherwise the current time. -/
def exerciseDate (date? : Option String) (now : Int) : Int :=
  match date? with
  | some d => if trimJS d == "" then now else (parseDate d).getD now
  | none => now

/-- Endpoint `POST /api/users/:_id/exercises` of `server.js` (lines 81-146):
require truthy description and duration, require `parseInt(duration)`
numeric (any integer, sign unchecked), default the date, look the user
up (`CastError` → 400, missing → 404), then persist and echo the record
with the `_id` of the user and a `toDateString` date. -/
def addExercise (db : DB) (uid desc dur : String) (date? : Option String)
    (now : Int) : ApiResult ExerciseResponse × DB :=
  if desc == "" || dur == "" then
    (.err 400 "Description and duration are required.", db)
  else
    match parseIntJS dur with
    | none => (.err 400 "Duration must be a number.", db)
    | some durationNum =>
      let dateObj := exerciseDate date? now
      match findByIdUser db uid with
      | .error _ => (.err 400 "Invalid user ID format", db)
      | .ok none => (.err 404 "User not found", db)
      | .ok (some user) =>
        let ex : Exercise := ⟨db.nextExerciseId, user.id, desc, durationNum, dateObj⟩
        (.ok ⟨user.id, user.username, desc, durationNum, toDateString dateObj⟩,
         { db with exercises := db.exercises ++ [ex],
                   nextExerciseId := db.nextExerciseId + 1 })

/-- The date handling of the exercise handler in the full app of
`part_000` (lines 188-198): a truthy `date` must parse (an unparsable one
is an error), otherwise the current time is used. -/
def exerciseDate2 (date? : Option String) (now : Int) : Except Unit Int :=
  match date? with
  | some d =>
    if d == "" then .ok now
    else
      match parseDate d with
      | some ms => .ok ms
      | none => .error ()
  | none => .ok now

/-- Endpoint `POST /api/users/:_id/exercises` of the full app in `part_000`
(lines 174-230): require truthy description and duration, look the user
up, reject a present-but-unparsable date with 400, then require
`parseInt(duration)` to be a positive number. -/
def addExercise2 (db : DB) (uid desc dur : String) (date? : Option String)
    (now : Int) : ApiResult ExerciseResponse × DB :=
  if desc == "" || dur == "" then
    (.err 400 "Descripción y duración son requeridas.", db)
  else
    match findByIdUser db uid with
    | .error _ => (.err 400 "ID de usuario inválido", db)
    | .ok none => (.err 404 "Usuario no encontrado con ese ID", db)
    | .ok (some user) =>
      match exerciseDate2 date? now with
      | .error _ => (.err 400 "Formato de fecha inválido", db)
      | .ok exDate =>
        match parseIntJS dur with
        | none => (.err 400 "La duración debe ser un número positivo.", db)
        | some n =>
          if n ≤ 0 then (.err 400 "La duración debe ser un número positivo.", db)
          else
            let ex : Exercise := ⟨db.nextExerciseId, user.id, desc, n, exDate⟩
            (.ok ⟨user.id, user.username, desc, n, toDateString exDate⟩,
             { db with exercises := db.exercises ++ [ex],
                       nextExerciseId := db.nextExerciseId + 1 })

/-- Handling of a `from`/`to` query value in the log handler of `server.js`
(lines 162-179): absent or empty means no bound, a parsable date gives a
bound, anything else is a 400 error. -/
def getBound (s? : Option String) : Except String (Option Int) :=
  match s? with
  | none => .ok none
  | some s =>
    if s == "" then .ok none
    else
      match parseDate s with
      | some ms => .ok (some ms)
      | none => .error "invalid date"

/-- Handling of the `limit` query value in the log handler of `server.js`
(lines 187-200): absent or empty means no limit, a positive
`parseInt` result is applied, a non-positive one is a 400 error, and a
`NaN` result is silently ignored (no limit applied). -/
def limitCheck (s? : Option String) : Except String (Option Nat) :=
  match s? with
  | none => .ok none
  | some s =>
    if s == "" then .ok none
    else
      match parseIntJS s with
      | none => .ok none
      | some n => if 0 < n then .ok (some n.toNat) else .error "invalid limit"

/-- The MongoDB date condition `{$gte, $lte}` built by `server.js`
(lines 160-183), applied to one stored date. -/
def dateMatches (g? l? : Option Int) (d : Int) : Bool :=
  (match g? with
   | none => true
   | some f => decide (f ≤ d)) &&
  (match l? with
   | none => true
   | some t => decide (d ≤ t))

/-- The projection of a stored exercise to a log entry
(`server.js` lines 204-208). -/
def logEntryOf (e : Exercise) : LogEntry :=
  ⟨e.description, e.duration, toDateString e.date⟩

/-- Endpoint `GET /api/users/:_id/logs` of `server.js` (lines 149-224): look the
user up (`CastError` → 400, missing → 404), validate `from`/`to`, widen
the `to` bound to the end of its calendar day via
`setHours(23,59,59,999)`, validate `limit`, then return the filtered,
truncated, projected log with `count` equal to its length. -/
def getLog (db : DB) (uid : String) (from? to? limit? : Option String) :
    ApiResult LogResponse :=
  match findByIdUser db uid with
  | .error _ => .err 400 "Invalid user ID format"
  | .ok none => .err 404 "User not found"
  | .ok (some user) =>
    match getBound from? with
    | .error _ => .err 400 "Invalid \"from\" date format. Use yyyy-mm-dd."
    | .ok gte? =>
      match getBound to? with
      | .error _ => .err 400 "Invalid \"to\" date format. Use yyyy-mm-dd."
      | .ok toMid? =>
        let lte? := toMid?.map (fun t => t + 86399999)
        match limitCheck limit? with
        | .error _ => .err 400 "Invalid \"limit\" value. Must be a positive integer."
        | .ok n? =>
          let matched := db.exercises.filter
            (fun e => e.userId == uid && dateMatches gte? lte? e.date)
          let limited := match n? with
            | none => matched
            | some n => matched.take n
          let log := limited.map logEntryOf
          .ok ⟨user.id, user.username, log.length, log⟩

/-- A user of the bare router variant (`part_000` lines 1-74), whose
`User` model embeds the exercise log as an array field `log`. -/
structure RUser where
  id : String
  username : String
  log : List Exercise
deriving Repr, DecidableEq

/-- The `from` filter of the router (`part_000` lines 48-51): a truthy `from`
filters with a plain `ex.date >= fromDate` against the parsed instant; a
`NaN` instant compares false with everything. -/
def routerFromFilter (from? : Option String) (log : List Exercise) :
    List Exercise :=
  match from? with
  | none => log
  | some s =>
    if s == "" then log
    else
      match parseDate s with
      | some f => log.filter (fun e => decide (f ≤ e.date))
      | none => log.filter (fun _ => false)

/-- The `to` filter of the router (`part_000` lines 53-56): a truthy `to`
filters with a plain `ex.date <= toDate` against the parsed instant (no
end-of-day widening); a `NaN` instant compares false with everything. -/
def routerToFilter (to? : Option String) (log : List Exercise) :
    List Exercise :=
  match to? with
  | none => log
  | some s =>
    if s == "" then log
    else
      match parseDate s with
      | some t => log.filter (fun e => decide (e.date ≤ t))
      | none => log.filter (fun _ => false)

/-- The `log.slice(0, parseInt(limit))` step of the router (`part_000` lines 58-60):
a `NaN` limit empties the log and a negative one drops from the end, per
`Array.prototype.slice`. -/
def routerLimit (limit? : Option String) (log : List Exercise) :
    List Exercise :=
  match limit? with
  | none => log
  | some s =>
    if s == "" then log
    else
      match parseIntJS s with
      | none => []
      | some n => if 0 ≤ n then log.take n.toNat
                  else log.take ((log.length : Int) + n).toNat

/-- Endpoint `GET /:id/logs` of the bare router (`part_000` lines 42-72), given the
user the router fetched: apply the `from` filter, the `to` filter and the
`slice` truncation in order, then project and count. -/
def routerGetLog (u : RUser) (from? to? limit? : Option String) :
    ApiResult LogResponse :=
  let log3 := routerLimit limit? (routerToFilter to? (routerFromFilter from? u.log))
  .ok ⟨u.id, u.username, (log3.map logEntryOf).length, log3.map logEntryOf⟩

/-- The inclusion predicate of the spec for the log query: included iff the
date is at least the start of the `from` day (when given) and at most the
end of the entire `to` calendar day (when given). -/
def specIncluded (f? t? : Option Int) (d : Int) : Bool :=
  (match f? with
   | none => true
   | some f => decide (f ≤ d)) &&
  (match t? with
   | none => true
   | some t => decide (d ≤ t + 86399999))

/-- The date-filtered, projected log of one user, with the inclusion
predicate of the spec. -/
def logOf (db : DB) (uid : String) (f? t? : Option Int) : List LogEntry :=
  (db.exercises.filter (fun e => e.userId == uid && specIncluded f? t? e.date)).map
    logEntryOf

/-- A truthy `from`/`to` query value that does not parse as a date
(`server.js` lines 162-179 reject such a value with a 400 error). -/
def badDate (s? : Option String) : Prop :=
  truthy s? = true ∧ parseDate (s?.getD "") = none

/-- A truthy `limit` query value whose `parseInt` result is a
non-positive number (`server.js` lines 187-200 reject such a value with a
400 error; a `NaN` result is ignored instead). -/
def badLimit (s? : Option String) : Prop :=
  truthy s? = true ∧ ∃ n, parseIntJS (s?.getD "") = some n ∧ n ≤ 0

/-! Concrete fixtures used by witnesses and counterexamples. -/

def uidA : String := "aaaaaaaaaaaaaaaaaaaaaaaa"

def uidC : String := "cccccccccccccccccccccccc"

def alice : User := ⟨uidA, "alice"⟩

/-- An exercise dated 2023-01-10 (midnight UTC). -/
def exRun : Exercise := ⟨0, uidA, "run", 30, 1673308800000⟩

/-- An exercise dated noon on 2023-01-10. -/
def exSwim : Exercise := ⟨0, uidA, "swim", 45, 1673352000000⟩

def dbAlice : DB := ⟨[alice], [], 1, 0⟩

def dbOne : DB := ⟨[alice], [exRun], 1, 1⟩

def dbNoon : DB := ⟨[alice], [exSwim], 1, 1⟩

/-- Five exercises dated 2023-01-01 through 2023-01-05. -/
def dbFive : DB :=
  ⟨[alice],
   [⟨0, uidA, "d1", 10, 1672531200000⟩,
    ⟨1, uidA, "d2", 10, 1672617600000⟩,
    ⟨2, uidA, "d3", 10, 1672704000000⟩,
    ⟨3, uidA, "d4", 10, 1672790400000⟩,
    ⟨4, uidA, "d5", 10, 1672876800000⟩],
   1, 5⟩

def ruserMid : RUser := ⟨uidA, "alice", [exRun]⟩

def ruserNoon : RUser := ⟨uidA, "alice", [exSwim]⟩

def ruserFive : RUser := ⟨uidA, "alice", dbFive.exercises⟩

/-! Helper lemmas. -/

theorem specIncluded_eq (f? t? : Option Int) (d : Int) :
    specIncluded f? t? d = dateMatches f? (t?.map (fun t => t + 86399999)) d := by
  cases t? <;> cases f? <;> rfl

theorem findByIdUser_ok {db : DB} {uid : String} {u : User}
    (h : findByIdUser db uid = .ok (some u)) :
    isValidObjectId uid = true ∧ findUser db uid = some u := by
  unfold findByIdUser at h
  by_cases hv : isValidObjectId uid
  · simp only [hv, if_true] at h
    exact ⟨hv, by injection h⟩
  · simp only [hv, Bool.false_eq_true, if_false, reduceCtorEq] at h

theorem findUser_id {db : DB} {uid : String} {u : User}
    (h : findUser db uid = some u) : u.id = uid := by
  have h2 := List.find?_some h
  simpa using h2

theorem addExercise_ok {db : DB} {uid desc dur : String} {date? : Option String}
    {now : Int} {user : User} {n : Int}
    (hdesc : (desc == "") = false) (hdurne : (dur == "") = false)
    (hdur : parseIntJS dur = some n)
    (hu : findByIdUser db uid = .ok (some user)) :
    addExercise db uid desc dur date? now =
      (.ok ⟨user.id, user.username, desc, n, toDateString (exerciseDate date? now)⟩,
       { db with
           exercises := db.exercises ++
             [⟨db.nextExerciseId, user.id, desc, n, exerciseDate date? now⟩],
           nextExerciseId := db.nextExerciseId + 1 }) := by
  unfold addExercise
  simp only [hdesc, hdurne, hdur, hu, Bool.or_self, Bool.false_eq_true, if_false]

theorem addExercise2_ok {db : DB} {uid desc dur : String} {date? : Option String}
    {now exDate : Int} {user : User} {n : Int}
    (hdesc : (desc == "") = false) (hdurne : (dur == "") = false)
    (hu : findByIdUser db uid = .ok (some user))
    (hd : exerciseDate2 date? now = .ok exDate)
    (hdur : parseIntJS dur = some n) (hn : 0 < n) :
    addExercise2 db uid desc dur date? now =
      (.ok ⟨user.id, user.username, desc, n, toDateString exDate⟩,
       { db with
           exercises := db.exercises ++
             [⟨db.nextExerciseId, user.id, desc, n, exDate⟩],
           nextExerciseId := db.nextExerciseId + 1 }) := by
  unfold addExercise2
  simp only [hdesc, hdurne, Bool.or_self, Bool.false_eq_true, if_false, hu, hd, hdur]
  rw [if_neg (by omega : ¬ n ≤ 0)]

theorem getLog_ok {db : DB} {uid : String} {from? to? : Option String}
    {f? t? : Option Int} {user : User}
    (hu : findByIdUser db uid = .ok (some user))
    (hf : getBound from? = .ok f?) (ht : getBound to? = .ok t?) :
    getLog db uid from? to? none =
      .ok ⟨user.id, user.username, (logOf db uid f? t?).length, logOf db uid f? t?⟩ := by
  unfold getLog
  rw [hu, hf, ht]
  have hp : (fun e : Exercise => e.userId == uid &&
      dateMatches f? (t?.map (fun t => t + 86399999)) e.date) =
      (fun e : Exercise => e.userId == uid && specIncluded f? t? e.date) := by
    funext e
    rw [specIncluded_eq]
  unfold logOf
  simp only [limitCheck]
  rw [hp]

theorem getLog_ok_limit {db : DB} {uid : String} {from? to? : Option String}
    {f? t? : Option Int} {user : User} {s : String} {n : Int}
    (hu : findByIdUser db uid = .ok (some user))
    (hf : getBound from? = .ok f?) (ht : getBound to? = .ok t?)
    (hs : (s == "") = false) (hl : parseIntJS s = some n) (hn : 0 < n) :
    getLog db uid from? to? (some s) =
      .ok ⟨user.id, user.username, ((logOf db uid f? t?).take n.toNat).length,
           (logOf db uid f? t?).take n.toNat⟩ := by
  unfold getLog
  rw [hu, hf, ht]
  have hlc : limitCheck (some s) = .ok (some n.toNat) := by
    simp [limitCheck, hs, hl, hn]
  rw [hlc]
  have hp : (fun e : Exercise => e.userId == uid &&
      dateMatches f? (t?.map (fun t => t + 86399999)) e.date) =
      (fun e : Exercise => e.userId == uid && specIncluded f? t? e.date) := by
    funext e
    rw [specIncluded_eq]
  dsimp only
  unfold logOf
  rw [hp, List.map_take]

theorem routerFromFilter_ok {from? : Option String} {f? : Option Int}
    (hf : getBound from? = .ok f?) (log : List Exercise) :
    routerFromFilter from? log =
      log.filter (fun e =>
        match f? with
        | none => true
        | some f => decide (f ≤ e.date)) := by
  cases from? with
  | none =>
    unfold getBound at hf
    injection hf with hf
    subst hf
    simp [routerFromFilter]
  | some s =>
    unfold getBound at hf
    unfold routerFromFilter
    dsimp only at hf ⊢
    by_cases hs : (s == "") = true
    · rw [hs] at hf ⊢
      simp only [if_true] at hf ⊢
      injection hf with hf
      subst hf
      simp
    · rw [Bool.not_eq_true] at hs
      rw [hs] at hf ⊢
      simp only [Bool.false_eq_true, if_false] at hf ⊢
      cases hp : parseDate s with
      | none => rw [hp] at hf; exact absurd hf (by simp)
      | some v =>
        rw [hp] at hf
        injection hf with hf
        subst hf
        rfl

theorem routerToFilter_ok {to? : Option String} {t? : Option Int}
    (ht : getBound to? = .ok t?) (log : List Exercise) :
    routerToFilter to? log =
      log.filter (fun e =>
        match t? with
        | none => true
        | some t => decide (e.date ≤ t)) := by
  cases to? with
  | none =>
    unfold getBound at ht
    injection ht with ht
    subst ht
    simp [routerToFilter]
  | some s =>
    unfold getBound at ht
    unfold routerToFilter
    dsimp only at ht ⊢
    by_cases hs : (s == "") = true
    · rw [hs] at ht ⊢
      simp only [if_true] at ht ⊢
      injection ht with ht
      subst ht
      simp
    · rw [Bool.not_eq_true] at hs
      rw [hs] at ht ⊢
      simp only [Bool.false_eq_true, if_false] at ht ⊢
      cases hp : parseDate s with
      | none => rw [hp] at ht; exact absurd ht (by simp)
      | some v =>
        rw [hp] at ht
        injection ht with ht
        subst ht
        rfl

theorem routerGetLog_ok {u : RUser} {from? to? : Option String}
    {f? t? : Option Int}
    (hf : getBound from? = .ok f?) (ht : getBound to? = .ok t?) :
    routerGetLog u from? to? none =
      .ok ⟨u.id, u.username,
           ((u.log.filter (fun e => dateMatches f? t? e.date)).map logEntryOf).length,
           (u.log.filter (fun e => dateMatches f? t? e.date)).map logEntryOf⟩ := by
  unfold routerGetLog routerLimit
  dsimp only
  rw [routerFromFilter_ok hf, routerToFilter_ok ht, List.filter_filter]
  clear hf ht
  have hq : (fun e : Exercise =>
      (match t? with
       | none => true
       | some t => decide (e.date ≤ t)) &&
      (match f? with
       | none => true
       | some f => decide (f ≤ e.date))) =
      (fun e : Exercise => dateMatches f? t? e.date) := by
    funext e
    unfold dateMatches
    cases f? <;> cases t? <;> simp [Bool.and_comm]
  rw [hq]

theorem getLog_entries {db : DB} {uid : String} {from? to? limit? : Option String}
    {r : LogResponse}
    (hg : getLog db uid from? to? limit? = .ok r) :
    ∀ e ∈ r.log, ∃ ex ∈ db.exercises, e = logEntryOf ex := by
  unfold getLog at hg
  cases h1 : findByIdUser db uid with
  | error s => rw [h1] at hg; exact absurd hg (by simp)
  | ok o =>
    rw [h1] at hg
    cases o with
    | none => exact absurd hg (by simp)
    | some user =>
      cases h2 : getBound from? with
      | error s => rw [h2] at hg; exact absurd hg (by simp)
      | ok gte? =>
        rw [h2] at hg
        cases h3 : getBound to? with
        | error s => rw [h3] at hg; exact absurd hg (by simp)
        | ok toMid? =>
          rw [h3] at hg
          cases h4 : limitCheck limit? with
          | error s => rw [h4] at hg; exact absurd hg (by simp)
          | ok n? =>
            rw [h4] at hg
            dsimp only at hg
            injection hg with hg
            subst hg
            cases n? with
            | none =>
              intro e he
              dsimp only at he
              rw [List.mem_map] at he
              obtain ⟨ex, hmem, hex⟩ := he
              exact ⟨ex, List.mem_of_mem_filter hmem, hex.symm⟩
            | some n =>
              intro e he
              dsimp only at he
              rw [List.mem_map] at he
              obtain ⟨ex, hmem, hex⟩ := he
              exact ⟨ex, List.mem_of_mem_filter (List.mem_of_mem_take hmem), hex.symm⟩

theorem exerciseDate_default {date? : Option String} {now : Int}
    (h : date? = none ∨ trimJS (date?.getD "") = "" ∨ parseDate (date?.getD "") = none) :
    exerciseDate date? now = now := by
  cases date? with
  | none => rfl
  | some d =>
    unfold exerciseDate
    rcases h with h | h | h
    · exact absurd h (by simp)
    · simp only [Option.getD_some] at h
      simp [h]
    · simp only [Option.getD_some] at h
      by_cases ht : (trimJS d == "") = true
      · simp [ht]
      · rw [Bool.not_eq_true] at ht
        simp [ht, h]

theorem getBound_error_iff (s? : Option String) :
    (∃ e, getBound s? = .error e) ↔ badDate s? := by
  unfold getBound badDate truthy
  cases s? with
  | none => simp
  | some s =>
    dsimp only
    by_cases hs : (s == "") = true
    · simp [hs]
    · rw [Bool.not_eq_true] at hs
      simp only [hs, Bool.false_eq_true, if_false, Bool.not_false, Option.getD_some]
      cases hp : parseDate s with
      | none => simp
      | some v => simp

theorem limitCheck_error_iff (s? : Option String) :
    (∃ e, limitCheck s? = .error e) ↔ badLimit s? := by
  unfold limitCheck badLimit truthy
  cases s? with
  | none => simp
  | some s =>
    dsimp only
    by_cases hs : (s == "") = true
    · simp [hs]
    · rw [Bool.not_eq_true] at hs
      simp only [hs, Bool.false_eq_true, if_false, Bool.not_false, Option.getD_some]
      cases hp : parseIntJS s with
      | none => simp
      | some n =>
        by_cases hn : 0 < n
        · constructor
          · rintro ⟨e, he⟩
            dsimp only at he
            rw [if_pos hn] at he
            exact absurd he (by simp)
          · rintro ⟨-, m, hm, hle⟩
            injection hm with hm
            omega
        · constructor
          · intro _
            exact ⟨trivial, n, rfl, by omega⟩
          · intro _
            dsimp only
            rw [if_neg hn]
            exact ⟨"invalid limit", rfl⟩

theorem routerGetLog_ok_limit {u : RUser} {from? to? : Option String}
    {f? t? : Option Int} {s : String} {n : Int}
    (hf : getBound from? = .ok f?) (ht : getBound to? = .ok t?)
    (hs : (s == "") = false) (hl : parseIntJS s = some n) (hn : 0 ≤ n) :
    routerGetLog u from? to? (some s) =
      .ok ⟨u.id, u.username,
           (((u.log.filter (fun e => dateMatches f? t? e.date)).take n.toNat).map
             logEntryOf).length,
           ((u.log.filter (fun e => dateMatches f? t? e.date)).take n.toNat).map
             logEntryOf⟩ := by
  unfold routerGetLog routerLimit
  dsimp only
  simp only [hs, Bool.false_eq_true, if_false, hl, hn, if_true]
  rw [routerFromFilter_ok hf, routerToFilter_ok ht, List.filter_filter]
  clear hf ht
  have hq : (fun e : Exercise =>
      (match t? with
       | none => true
       | some t => decide (e.date ≤ t)) &&
      (match f? with
       | none => true
       | some f => decide (f ≤ e.date))) =
      (fun e : Exercise => dateMatches f? t? e.date) := by
    funext e
    unfold dateMatches
    cases f? <;> cases t? <;> simp [Bool.and_comm]
  rw [hq]

/-! Claims. -/

/-- Claim C1 (amended): in the main app (`server.js`), an exercise is
included in the result of `getLog` iff its date is at least the start of the
`from` day (when given) and at most the end of the entire `to` calendar
day (when given), each bound being optional and independent; in the bare
router variant the bounds compare against the parsed midnight instants
themselves, so the `to` day is not covered past its midnight. With
`from = to = "2023-01-10"`, a midnight-dated exercise of 2023-01-10 is
returned by both variants (witness). -/
theorem c1_log_filter_bounds (db : DB) (u : RUser) (uid : String)
    (from? to? : Option String) (f? t? : Option Int) (user : User)
    (hu : findByIdUser db uid = .ok (some user))
    (hf : getBound from? = .ok f?) (ht : getBound to? = .ok t?) :
    getLog db uid from? to? none =
      .ok ⟨user.id, user.username, (logOf db uid f? t?).length, logOf db uid f? t?⟩ ∧
    routerGetLog u from? to? none =
      .ok ⟨u.id, u.username,
           ((u.log.filter (fun e => dateMatches f? t? e.date)).map logEntryOf).length,
           (u.log.filter (fun e => dateMatches f? t? e.date)).map logEntryOf⟩ :=
  ⟨getLog_ok hu hf ht, routerGetLog_ok hf ht⟩

/-- Claim C1, witness: the inclusive single-day boundary
`from = to = "2023-01-10"` on an exercise dated 2023-01-10. -/
theorem c1_log_filter_bounds_witness :
    getLog dbOne uidA (some "2023-01-10") (some "2023-01-10") none =
      .ok ⟨uidA, "alice", 1, [⟨"run", 30, "Tue Jan 10 2023"⟩]⟩ ∧
    routerGetLog ruserMid (some "2023-01-10") (some "2023-01-10") none =
      .ok ⟨uidA, "alice", 1, [⟨"run", 30, "Tue Jan 10 2023"⟩]⟩ := by
  have h := c1_log_filter_bounds dbOne ruserMid uidA (some "2023-01-10")
    (some "2023-01-10") (some 1673308800000) (some 1673308800000) alice
    (by decide) (by decide) (by decide)
  exact ⟨h.1.trans (by decide), h.2.trans (by decide)⟩

/-- Claim C1, counterexample: an exercise dated noon of 2023-01-10 has
`date <= end of the "2023-01-10" calendar day`, yet the `getLog` of the bare
router with `to = "2023-01-10"` excludes it (count 0), because it
compares against the parsed midnight instant; the main app includes it.
So the claimed iff is false for the router variant. -/
theorem c1_cex :
    routerGetLog ruserNoon none (some "2023-01-10") none =
      .ok ⟨uidA, "alice", 0, []⟩ ∧
    ((1673352000000 : Int) ≤ 1673308800000 + 86399999) ∧
    getLog dbNoon uidA none (some "2023-01-10") none =
      .ok ⟨uidA, "alice", 1, [⟨"swim", 45, "Tue Jan 10 2023"⟩]⟩ :=
  ⟨by decide, by decide, by decide⟩

/-- Claim C2 (confirmed): with a valid positive integer `limit`, both the
main app and the router variant return the first `limit` entries taken
from the front of the already date-filtered sequence, and the `count`
field equals the length of the log actually returned. -/
theorem c2_limit_truncates (db : DB) (u : RUser) (uid : String)
    (from? to? : Option String) (f? t? : Option Int) (user : User)
    (s : String) (n : Int)
    (hu : findByIdUser db uid = .ok (some user))
    (hf : getBound from? = .ok f?) (ht : getBound to? = .ok t?)
    (hs : (s == "") = false) (hl : parseIntJS s = some n) (hn : 0 < n) :
    getLog db uid from? to? (some s) =
      .ok ⟨user.id, user.username, ((logOf db uid f? t?).take n.toNat).length,
           (logOf db uid f? t?).take n.toNat⟩ ∧
    routerGetLog u from? to? (some s) =
      .ok ⟨u.id, u.username,
           (((u.log.filter (fun e => dateMatches f? t? e.date)).take n.toNat).map
             logEntryOf).length,
           ((u.log.filter (fun e => dateMatches f? t? e.date)).take n.toNat).map
             logEntryOf⟩ :=
  ⟨getLog_ok_limit hu hf ht hs hl hn, routerGetLog_ok_limit hf ht hs hl (le_of_lt hn)⟩

/-- Claim C2, witness: `limit = 2` over five filtered matches returns
exactly the first two and `count = 2` in both variants. -/
theorem c2_limit_truncates_witness :
    getLog dbFive uidA none none (some "2") =
      .ok ⟨uidA, "alice", 2,
           [⟨"d1", 10, "Sun Jan 01 2023"⟩, ⟨"d2", 10, "Mon Jan 02 2023"⟩]⟩ ∧
    routerGetLog ruserFive none none (some "2") =
      .ok ⟨uidA, "alice", 2,
           [⟨"d1", 10, "Sun Jan 01 2023"⟩, ⟨"d2", 10, "Mon Jan 02 2023"⟩]⟩ := by
  have h := c2_limit_truncates dbFive ruserFive uidA none none none none alice
    "2" 2 (by decide) rfl rfl (by decide) (by decide) (by decide)
  exact ⟨h.1.trans (by decide), h.2.trans (by decide)⟩

/-- Claim C3 (confirmed): for an existing user and valid description and
duration, `addExercise` followed by `getLog` with no filters returns the
previous log plus exactly the exercise just added. -/
theorem c3_add_then_log (db : DB) (uid desc dur : String)
    (date? : Option String) (now : Int) (user : User) (n : Int)
    (hdesc : (desc == "") = false) (hdurne : (dur == "") = false)
    (hdur : parseIntJS dur = some n)
    (hu : findByIdUser db uid = .ok (some user)) :
    ∃ db2 res, addExercise db uid desc dur date? now = (.ok res, db2) ∧
      getLog db2 uid none none none =
        .ok ⟨user.id, user.username, (logOf db uid none none).length + 1,
             logOf db uid none none ++
               [⟨desc, n, toDateString (exerciseDate date? now)⟩]⟩ := by
  have ha := @addExercise_ok db uid desc dur date? now user n hdesc hdurne hdur hu
  refine ⟨_, _, ha, ?_⟩
  have hu2 : findByIdUser
      { db with
          exercises := db.exercises ++
            [⟨db.nextExerciseId, user.id, desc, n, exerciseDate date? now⟩],
          nextExerciseId := db.nextExerciseId + 1 } uid = .ok (some user) := hu
  have hg := @getLog_ok _ uid none none none none user hu2 rfl rfl
  refine hg.trans ?_
  have hid : (user.id == uid) = true := by
    have h2 := findUser_id (findByIdUser_ok hu).2
    simp [h2]
  have hlog : logOf
      { db with
          exercises := db.exercises ++
            [⟨db.nextExerciseId, user.id, desc, n, exerciseDate date? now⟩],
          nextExerciseId := db.nextExerciseId + 1 } uid none none =
      logOf db uid none none ++
        [⟨desc, n, toDateString (exerciseDate date? now)⟩] := by
    unfold logOf
    dsimp only
    rw [List.filter_append, List.map_append]
    congr 1
    simp [List.filter, hid, specIncluded, logEntryOf]
  rw [hlog]
  simp

/-- Claim C3, witness: adding a 30-minute run dated 2023-01-10 to a user
with an empty log and reading the unfiltered log back. -/
theorem c3_add_then_log_witness :
    ∃ db2 res,
      addExercise dbAlice uidA "run" "30" (some "2023-01-10") 0 = (.ok res, db2) ∧
      getLog db2 uidA none none none =
        .ok ⟨alice.id, alice.username, (logOf dbAlice uidA none none).length + 1,
             logOf dbAlice uidA none none ++
               [⟨"run", 30, toDateString (exerciseDate (some "2023-01-10") 0)⟩]⟩ :=
  c3_add_then_log dbAlice uidA "run" "30" (some "2023-01-10") 0 alice 30
    (by decide) (by decide) (by decide) (by decide)

/-- Claim C4, counterexample: in the main app (`server.js` lines 86-93)
only a missing or non-numeric duration is rejected; `duration = "-1"`
passes `parseInt` and the exercise is created with duration -1 and a 200
response, so "fails whenever duration is not a positive integer" is false
there. -/
theorem c4_cex :
    (addExercise dbAlice uidA "running" "-1" none 0).1 =
      .ok ⟨uidA, "alice", "running", -1, "Thu Jan 01 1970"⟩ := by decide

/-- Claim C4 (amended): in the full app of `part_000` (lines 200-203),
`addExercise` succeeds only when the description is non-empty and
`parseInt(duration)` is a positive integer — so `duration = -1` fails and
`duration = 30` succeeds there; the main app (`server.js`) checks only
that the duration is present and numeric (counterexample). -/
theorem c4_positive_duration (db : DB) (uid desc dur : String)
    (date? : Option String) (now : Int) (res : ExerciseResponse) (db2 : DB)
    (h : addExercise2 db uid desc dur date? now = (.ok res, db2)) :
    desc ≠ "" ∧ ∃ n, parseIntJS dur = some n ∧ 0 < n ∧ res.duration = n := by
  unfold addExercise2 at h
  by_cases h1 : (desc == "" || dur == "") = true
  · rw [if_pos h1] at h
    exact absurd (congrArg Prod.fst h) (by simp)
  · rw [if_neg h1] at h
    have hdesc : desc ≠ "" := by
      intro hde
      apply h1
      rw [hde]
      simp
    cases h2 : findByIdUser db uid with
    | error s => rw [h2] at h; exact absurd (congrArg Prod.fst h) (by simp)
    | ok o =>
      rw [h2] at h
      cases o with
      | none => exact absurd (congrArg Prod.fst h) (by simp)
      | some user =>
        dsimp only at h
        cases h3 : exerciseDate2 date? now with
        | error u => rw [h3] at h; exact absurd (congrArg Prod.fst h) (by simp)
        | ok exDate =>
          rw [h3] at h
          cases h4 : parseIntJS dur with
          | none => rw [h4] at h; exact absurd (congrArg Prod.fst h) (by simp)
          | some n =>
            rw [h4] at h
            dsimp only at h
            by_cases h5 : n ≤ 0
            · rw [if_pos h5] at h
              exact absurd (congrArg Prod.fst h) (by simp)
            · rw [if_neg h5] at h
              refine ⟨hdesc, n, rfl, by omega, ?_⟩
              have hres := congrArg Prod.fst h
              dsimp only at hres
              injection hres with hres
              rw [hres.symm]

/-- Claim C4, witness: `duration = "30"` succeeds in the full app of
`part_000` and the returned duration is the parsed positive integer. -/
theorem c4_positive_duration_witness :
    "running" ≠ "" ∧ ∃ n, parseIntJS "30" = some n ∧ 0 < n ∧
      (ExerciseResponse.mk uidA "alice" "running" 30 "Thu Jan 01 1970").duration = n :=
  c4_positive_duration dbAlice uidA "running" "30" none 0
    ⟨uidA, "alice", "running", 30, "Thu Jan 01 1970"⟩
    ⟨[alice], [⟨0, uidA, "running", 30, 0⟩], 1, 1⟩ (by decide)

/-- Claim C5, counterexample: a non-numeric `limit` such as `"abc"` does
not produce a 400 error in `server.js`; `parseInt` yields `NaN`, the
branch applies no limit, and the full log is returned with status 200. -/
theorem c5_cex :
    getLog dbOne uidA none none (some "abc") =
      .ok ⟨uidA, "alice", 1, [⟨"run", 30, "Tue Jan 10 2023"⟩]⟩ := by decide

/-- Claim C5 (amended): for an existing user, `getLog` fails with a 400
error exactly when `from` or `to` is present but unparsable, or when
`limit` is present and `parseInt` yields a non-positive number; a
non-numeric `limit` is silently ignored rather than rejected
(counterexample), and on a 400 error no log is returned. -/
theorem c5_log_validation (db : DB) (uid : String)
    (from? to? limit? : Option String) (user : User)
    (hu : findByIdUser db uid = .ok (some user)) :
    (∃ m, getLog db uid from? to? limit? = .err 400 m) ↔
      (badDate from? ∨ badDate to? ∨ badLimit limit?) := by
  unfold getLog
  rw [hu]
  cases h2 : getBound from? with
  | error e =>
    constructor
    · intro _
      exact Or.inl ((getBound_error_iff from?).mp ⟨e, h2⟩)
    · intro _
      exact ⟨_, rfl⟩
  | ok g =>
    cases h3 : getBound to? with
    | error e =>
      constructor
      · intro _
        exact Or.inr (Or.inl ((getBound_error_iff to?).mp ⟨e, h3⟩))
      · intro _
        exact ⟨_, rfl⟩
    | ok t =>
      cases h4 : limitCheck limit? with
      | error e =>
        constructor
        · intro _
          exact Or.inr (Or.inr ((limitCheck_error_iff limit?).mp ⟨e, h4⟩))
        · intro _
          exact ⟨_, rfl⟩
      | ok n? =>
        constructor
        · rintro ⟨m, hm⟩
          exact absurd hm (by simp)
        · rintro (hb | hb | hb)
          · obtain ⟨e, he⟩ := (getBound_error_iff from?).mpr hb
            rw [h2] at he
            exact absurd he (by simp)
          · obtain ⟨e, he⟩ := (getBound_error_iff to?).mpr hb
            rw [h3] at he
            exact absurd he (by simp)
          · obtain ⟨e, he⟩ := (limitCheck_error_iff limit?).mpr hb
            rw [h4] at he
            exact absurd he (by simp)

/-- Claim C5, witness: `limit = "0"` parses to the non-positive number 0,
so the amended criterion classifies it as a 400 error. -/
theorem c5_log_validation_witness :
    (∃ m, getLog dbOne uidA none none (some "0") = .err 400 m) ↔
      (badDate none ∨ badDate none ∨ badLimit (some "0")) :=
  c5_log_validation dbOne uidA none none (some "0") alice (by decide)

/-- Claim C6, counterexample: `"nonexistent-id"` is not castable to an
ObjectId, so `findById` throws a `CastError` and both handlers reply 400
"Invalid user ID format" — not the claimed 404 `NotFoundError`. -/
theorem c6_cex :
    getLog dbOne "nonexistent-id" none none none =
      .err 400 "Invalid user ID format" ∧
    addExercise dbOne "nonexistent-id" "run" "30" none 0 =
      (.err 400 "Invalid user ID format", dbOne) :=
  ⟨by decide, by decide⟩

/-- Claim C6 (amended): with otherwise-valid inputs, a supplied userId
that is a well-formed ObjectId but resolves to no user makes both
`addExercise` and `getLog` fail with 404 "User not found" and leaves the
database unchanged (no write); a malformed userId instead fails with 400
"Invalid user ID format", also without writing. -/
theorem c6_unknown_user (db : DB) (uid desc dur : String)
    (date? from? to? limit? : Option String) (now : Int) (n : Int)
    (hdesc : (desc == "") = false) (hdurne : (dur == "") = false)
    (hdur : parseIntJS dur = some n)
    (hu : findUser db uid = none) :
    (isValidObjectId uid = true →
      getLog db uid from? to? limit? = .err 404 "User not found" ∧
      addExercise db uid desc dur date? now = (.err 404 "User not found", db)) ∧
    (isValidObjectId uid = false →
      getLog db uid from? to? limit? = .err 400 "Invalid user ID format" ∧
      addExercise db uid desc dur date? now =
        (.err 400 "Invalid user ID format", db)) := by
  constructor
  · intro hv
    have hb : findByIdUser db uid = .ok none := by
      unfold findByIdUser
      simp [hv, hu]
    constructor
    · unfold getLog
      rw [hb]
    · unfold addExercise
      simp only [hdesc, hdurne, hdur, hb, Bool.or_self, Bool.false_eq_true, if_false]
  · intro hv
    have hb : findByIdUser db uid = .error "CastError" := by
      unfold findByIdUser
      simp [hv]
    constructor
    · unfold getLog
      rw [hb]
    · unfold addExercise
      simp only [hdesc, hdurne, hdur, hb, Bool.or_self, Bool.false_eq_true, if_false]

/-- Claim C6, witness: a well-formed 24-hex id absent from the store gets
404 from both handlers with the database unchanged; the instantiated
malformed-id side is inhabited too. -/
theorem c6_unknown_user_witness :
    (isValidObjectId uidC = true →
      getLog dbOne uidC none none none = .err 404 "User not found" ∧
      addExercise dbOne uidC "run" "30" none 0 = (.err 404 "User not found", dbOne)) ∧
    (isValidObjectId uidC = false →
      getLog dbOne uidC none none none = .err 400 "Invalid user ID format" ∧
      addExercise dbOne uidC "run" "30" none 0 =
        (.err 400 "Invalid user ID format", dbOne)) :=
  c6_unknown_user dbOne uidC "run" "30" none none none none 0 30
    (by decide) (by decide) (by decide) (by decide)

/-- Claim C7, counterexample: in the full app of `part_000` (lines
190-195) a present-but-unparsable date is not treated as absent — it is
rejected with a 400 error instead of defaulting to the current date. -/
theorem c7_cex :
    (addExercise2 dbAlice uidA "running" "30" (some "not-a-date") 0).1 =
      .err 400 "Formato de fecha inválido" := by decide

/-- Claim C7 (amended): in the main app (`server.js` lines 95-113) the
date parameter is optional and an absent, blank, or unparsable date
defaults to the current date with no error — the created exercise and the
echoed response carry `now`; the full app of `part_000` instead rejects a
present-but-unparsable date with a 400 error (counterexample). -/
theorem c7_default_date (db : DB) (uid desc dur : String)
    (date? : Option String) (now : Int) (user : User) (n : Int)
    (hdesc : (desc == "") = false) (hdurne : (dur == "") = false)
    (hdur : parseIntJS dur = some n)
    (hu : findByIdUser db uid = .ok (some user))
    (hbad : date? = none ∨ trimJS (date?.getD "") = "" ∨
      parseDate (date?.getD "") = none) :
    addExercise db uid desc dur date? now =
      (.ok ⟨user.id, user.username, desc, n, toDateString now⟩,
       { db with
           exercises := db.exercises ++ [⟨db.nextExerciseId, user.id, desc, n, now⟩],
           nextExerciseId := db.nextExerciseId + 1 }) := by
  have h := @addExercise_ok db uid desc dur date? now user n hdesc hdurne hdur hu
  rw [exerciseDate_default hbad] at h
  exact h

/-- Claim C7, witness: the unparsable date `"not-a-date"` defaults to the
current time 12345 in the main app, with a 200 response. -/
theorem c7_default_date_witness :
    addExercise dbAlice uidA "running" "30" (some "not-a-date") 12345 =
      (.ok ⟨uidA, "alice", "running", 30, "Thu Jan 01 1970"⟩,
       ⟨[alice], [⟨0, uidA, "running", 30, 12345⟩], 1, 1⟩) :=
  (c7_default_date dbAlice uidA "running" "30" (some "not-a-date") 12345 alice 30
    (by decide) (by decide) (by decide) (by decide)
    (Or.inr (Or.inr (by decide)))).trans (by decide)

/-- Claim C8 (confirmed): the date in the success response of `addExercise` and
in every `getLog` log entry is the `toDateString` rendering
`"<Weekday> <Month> <Day> <Year>"` of the stored date, never an ISO
timestamp; in particular `"2020-02-02"` parses to epoch 1580601600000 and
renders back as `"Sun Feb 02 2020"`. -/
theorem c8_date_rendering (db db2 : DB) (uid uid2 desc dur : String)
    (date? from? to? limit? : Option String) (now : Int) (user : User)
    (n : Int) (r : LogResponse)
    (hdesc : (desc == "") = false) (hdurne : (dur == "") = false)
    (hdur : parseIntJS dur = some n)
    (hu : findByIdUser db uid = .ok (some user))
    (hg : getLog db2 uid2 from? to? limit? = .ok r) :
    (addExercise db uid desc dur date? now).1 =
      .ok ⟨user.id, user.username, desc, n, toDateString (exerciseDate date? now)⟩ ∧
    (∀ e ∈ r.log, ∃ ex ∈ db2.exercises, e.date = toDateString ex.date) ∧
    parseDate "2020-02-02" = some 1580601600000 ∧
    toDateString 1580601600000 = "Sun Feb 02 2020" := by
  refine ⟨?_, ?_, by decide, by decide⟩
  · rw [@addExercise_ok db uid desc dur date? now user n hdesc hdurne hdur hu]
  · intro e he
    obtain ⟨ex, hmem, hee⟩ := getLog_entries hg e he
    exact ⟨ex, hmem, by rw [hee]; rfl⟩

/-- Claim C8, witness: submitting `date = "2020-02-02"` echoes back
`"Sun Feb 02 2020"`. -/
theorem c8_date_rendering_witness :
    (addExercise dbAlice uidA "running" "30" (some "2020-02-02") 0).1 =
      .ok ⟨uidA, "alice", "running", 30, "Sun Feb 02 2020"⟩ ∧
    toDateString 1580601600000 = "Sun Feb 02 2020" := by
  have h := c8_date_rendering dbAlice dbOne uidA uidA "running" "30"
    (some "2020-02-02") none none none 0 alice 30
    ⟨uidA, "alice", 1, [⟨"run", 30, "Tue Jan 10 2023"⟩]⟩
    (by decide) (by decide) (by decide) (by decide) (by decide)
  exact ⟨h.1.trans (by decide), h.2.2.2⟩

/-- Claim C9 (amended): in the main app (`server.js` lines 48-57, and
likewise the full app of `part_000` lines 144-152) `createUser` with an
existing username returns the record of the existing user and leaves the user
list unchanged; the bare router variant (`part_000` lines 6-10) instead
attempts a fresh insert on every call, which for a duplicate username
fails on the uniqueness constraint with a `ConflictError` rather than
returning the existing record (counterexample). -/
theorem c9_idempotent_username (db : DB) (uname : String) (u : User)
    (hne : (uname == "") = false)
    (hu : db.users.find? (fun x => x.username == uname) = some u) :
    createUser db uname = (.ok ⟨u.username, u.id⟩, db) := by
  unfold createUser
  simp only [hne, Bool.false_eq_true, if_false, hu]

/-- Claim C9, witness: creating `"alice"` again returns her existing
record with the same id and the database (hence the user list) unchanged. -/
theorem c9_idempotent_username_witness :
    createUser dbAlice "alice" = (.ok ⟨"alice", uidA⟩, dbAlice) :=
  c9_idempotent_username dbAlice "alice" alice (by decide) (by decide)

/-- Claim C9, counterexample: the create endpoint of the bare router on a
duplicate username fails with a `ConflictError` and does not return the
record of the existing user. -/
theorem c9_cex :
    routerCreateUser dbAlice "alice" =
      (.err 409 "ConflictError: duplicate username", dbAlice) := by decide

/-- Claim C10 (confirmed): in both exercise handlers — `addExercise` of
`server.js` and `addExercise2` of the `part_000` full app — the `_id` of
the success response is the id of the user (the own id of the created
exercise record, `db.nextExerciseId`, appears only inside the store), and
every `getLog` log entry is exactly `{description, duration, date}` of a
stored exercise — no exercise id or userId is exposed. -/
theorem c10_response_ids (db db2 : DB) (uid uid2 desc dur : String)
    (date? from? to? limit? : Option String) (now exDate : Int) (user : User)
    (n : Int) (r : LogResponse)
    (hdesc : (desc == "") = false) (hdurne : (dur == "") = false)
    (hdur : parseIntJS dur = some n)
    (hd : exerciseDate2 date? now = .ok exDate) (hn : 0 < n)
    (hu : findByIdUser db uid = .ok (some user))
    (hg : getLog db2 uid2 from? to? limit? = .ok r) :
    addExercise db uid desc dur date? now =
      (.ok ⟨user.id, user.username, desc, n, toDateString (exerciseDate date? now)⟩,
       { db with
           exercises := db.exercises ++
             [⟨db.nextExerciseId, user.id, desc, n, exerciseDate date? now⟩],
           nextExerciseId := db.nextExerciseId + 1 }) ∧
    addExercise2 db uid desc dur date? now =
      (.ok ⟨user.id, user.username, desc, n, toDateString exDate⟩,
       { db with
           exercises := db.exercises ++
             [⟨db.nextExerciseId, user.id, desc, n, exDate⟩],
           nextExerciseId := db.nextExerciseId + 1 }) ∧
    (∀ e ∈ r.log, ∃ ex ∈ db2.exercises,
      e = ⟨ex.description, ex.duration, toDateString ex.date⟩) := by
  refine ⟨@addExercise_ok db uid desc dur date? now user n hdesc hdurne hdur hu,
    addExercise2_ok hdesc hdurne hu hd hdur hn, ?_⟩
  intro e he
  obtain ⟨ex, hmem, hee⟩ := getLog_entries hg e he
  exact ⟨ex, hmem, hee⟩

/-- Claim C10, witness: in both exercise handlers the response `_id`
equals the id `uidA` of the user while the own id of the stored exercise
is the counter value 0. -/
theorem c10_response_ids_witness :
    addExercise dbAlice uidA "running" "30" none 0 =
      (.ok ⟨uidA, "alice", "running", 30, "Thu Jan 01 1970"⟩,
       ⟨[alice], [⟨0, uidA, "running", 30, 0⟩], 1, 1⟩) ∧
    addExercise2 dbAlice uidA "running" "30" none 0 =
      (.ok ⟨uidA, "alice", "running", 30, "Thu Jan 01 1970"⟩,
       ⟨[alice], [⟨0, uidA, "running", 30, 0⟩], 1, 1⟩) := by
  have h := c10_response_ids dbAlice dbOne uidA uidA "running" "30" none none none
    none 0 0 alice 30 ⟨uidA, "alice", 1, [⟨"run", 30, "Tue Jan 10 2023"⟩]⟩
    (by decide) (by decide) (by decide) (by decide) (by decide) (by decide) (by decide)
  exact ⟨h.1.trans (by decide), h.2.1.trans (by decide)⟩
